import Mathlib

/-!
Shallow embedding of `attachment.go` from the go-confluence repository
(package `confluence`): the attachment data model, the endpoint builders,
the five attachment operations and the batch reconciler
`AddUpdateAttachments`, together with theorems settling the specification
claims about them.

Modelling conventions:
* Go strings are modelled as Lean `String`; the identifiers and literals the
  claims are about are ASCII, where Go's byte indexing and Lean's character
  indexing agree.
* The external collaborators (transport, local file system, JSON codec) are
  an explicit environment `Env` of oracle functions; each operation returns
  its Go result together with the list of network calls it performed.
* A Go run-time panic (out-of-range string slice) is modelled as `none` in
  an `Option` result.
-/

/-- Errors, tagged by provenance (Go uses opaque `error` values; the code
under verification never inspects an error beyond nil-ness, so the tags are
only bookkeeping). `errorString m` models `fmt.Errorf(m)`. -/
inductive GoError where
  | urlError (msg : String)
  | requestError (msg : String)
  | jsonError (msg : String)
  | osError (msg : String)
  | errorString (msg : String)
deriving DecidableEq, Repr, Inhabited

/-- `metadata` object of the attachment wire shape. -/
structure AttachmentMetadata where
  Comment : String
  MediaType : String
deriving DecidableEq, Repr, Inhabited

/-- `version` object of the attachment wire shape. -/
structure AttachmentVersion where
  Number : Int
deriving DecidableEq, Repr, Inhabited

/-- Go struct `Attachment` (the field Go names `Type` is called `typ` here,
`Type` being reserved in Lean). -/
structure Attachment where
  Id : String
  typ : String
  Status : String
  Title : String
  Metadata : AttachmentMetadata
  Version : AttachmentVersion
deriving DecidableEq, Repr, Inhabited

/-- Go struct `Attachments`: the `results` envelope with its reported `size`. -/
structure Attachments where
  Results : List Attachment
  Size : Int
deriving DecidableEq, Repr, Inhabited

/-- Model of Go `url.URL` restricted to how `attachment.go` uses it: the code
only ever serialises a parsed URL back with `String()` and assigns the
`RawQuery` field, so we keep the serialised path part plus the raw query. -/
structure Url where
  raw : String
  rawQuery : String := ""
deriving DecidableEq, Repr, Inhabited

/-- Go `url.URL.String()` for our restricted model: append `?query` when a
raw query is present. -/
def Url.toString (u : Url) : String :=
  if u.rawQuery = "" then u.raw else u.raw ++ "?" ++ u.rawQuery

/-- Characters our restricted URL model accepts: enough for scheme, host,
path segments and the identifiers the code builds endpoints from. Go's
`url.ParseRequestURI` accepts every string over this alphabet that carries an
http(s) scheme, and `String()` returns such a string unchanged. -/
def simpleURIChar (c : Char) : Bool :=
  c.isAlphanum || c == '/' || c == '.' || c == '-' || c == '_' || c == ':' || c == '~'

/-- Strings our model of `url.ParseRequestURI` accepts: an http(s) scheme
followed by characters from `simpleURIChar` (in particular no `?`, so the
accepted string is pure path and the query lives in `rawQuery` alone). -/
def simpleRequestURI (s : String) : Bool :=
  ("http://".toList.isPrefixOf s.toList || "https://".toList.isPrefixOf s.toList)
    && s.toList.all simpleURIChar

/-- Model of Go `url.ParseRequestURI`, restricted to the alphabet of
`simpleRequestURI`: on accepted strings Go parses successfully and
`String()` round-trips, which is all the code under verification relies on;
on rejected strings the model fails like Go fails on malformed input. -/
def parseRequestURI (s : String) : Except GoError Url :=
  if simpleRequestURI s then .ok { raw := s } else .error (.urlError s)

/-- Go struct `Client`, restricted to the field `attachment.go` reads.
Modelled from the spec: the client carries the base API root (`Endpoint`)
used by the Endpoint Builder; the rest of the client lives outside `src/`. -/
structure Client where
  Endpoint : String
deriving DecidableEq, Repr, Inhabited

/-- `client.newAttachmentEndpoint(contentID)`: parse
`{Endpoint}/content/{contentID}/child/attachment`. Note: no emptiness check
on `contentID`. -/
def Client.newAttachmentEndpoint (client : Client) (contentID : String) :
    Except GoError Url :=
  parseRequestURI (client.Endpoint ++ "/content/" ++ contentID ++ "/child/attachment")

/-- `client.attachmentEndpoint(contentID, attachmentID)`: extend the
collection endpoint with `/{attachmentID}`. -/
def Client.attachmentEndpoint (client : Client) (contentID attachmentID : String) :
    Except GoError Url :=
  match client.newAttachmentEndpoint contentID with
  | .ok endpoint => parseRequestURI (endpoint.toString ++ "/" ++ attachmentID)
  | .error err => .error err

/-- `client.attachmentDataEndpoint(contentID, attachmentID)`: extend the
attachment endpoint with `/data`. -/
def Client.attachmentDataEndpoint (client : Client) (contentID attachmentID : String) :
    Except GoError Url :=
  match client.attachmentEndpoint contentID attachmentID with
  | .ok endpoint => parseRequestURI (endpoint.toString ++ "/data")
  | .error err => .error err

/-- Hex digits used by percent-encoding (Go uses upper case). -/
def upperHexDigits : List Char :=
  ['0', '1', '2', '3', '4', '5', '6', '7', '8', '9', 'A', 'B', 'C', 'D', 'E', 'F']

/-- Percent-encode one byte, `%XX`. -/
def percentByte (b : UInt8) : List Char :=
  ['%', upperHexDigits.getD (b.toNat / 16) '0', upperHexDigits.getD (b.toNat % 16) '0']

/-- Go `url.QueryEscape` on one character: space becomes `+`, unreserved
characters stay, everything else is percent-encoded byte by byte (UTF-8). -/
def queryEscapeChar (c : Char) : List Char :=
  if c = ' ' then ['+']
  else if c.isAlphanum || c == '-' || c == '_' || c == '.' || c == '~' then [c]
  else (String.utf8EncodeChar c).map percentByte |>.flatten

/-- Go `url.QueryEscape`. -/
def queryEscape (s : String) : String :=
  ⟨(s.toList.map queryEscapeChar).flatten⟩

/-- `url.Values{}.Set("filename", v); .Encode()`: a single-key query encodes
as `filename={escaped v}`. -/
def valuesEncodeFilename (v : String) : String :=
  "filename=" ++ queryEscape v

/-- Result of Go `os.FileInfo.Name()`: the base name of the file. -/
structure FileInfo where
  name : String
deriving DecidableEq, Repr, Inhabited

/-- A file handle as the operations use it: the outcome of `Stat` and the
outcome of reading the whole contents (`io.Copy` from the handle). -/
structure GoFile where
  statResult : Except GoError FileInfo
  readResult : Except GoError String
deriving Repr, Inhabited

/-- Go `strconv.FormatBool`. -/
def strconvFormatBool (b : Bool) : String :=
  if b then "true" else "false"

/-- The multipart body the operations build: one file part named `file`
carrying the source file's base name and contents, plus the extra text
fields (`minorEdit` on the update path). The fresh per-call boundary is not
modelled, no claim depends on it. -/
structure MultipartBody where
  fileFieldName : String
  fileName : String
  fileContents : String
  fields : List (String × String)
deriving DecidableEq, Repr, Inhabited

/-- Build the multipart body exactly as the Go code does:
`CreateFormFile("file", fi.Name())`, `io.Copy` of the contents, then for the
update path `WriteField("minorEdit", strconv.FormatBool(minorEdit))`. -/
def mkMultipartBody (fileName contents : String) (minorEdit : Option Bool) :
    MultipartBody :=
  { fileFieldName := "file", fileName := fileName, fileContents := contents,
    fields := match minorEdit with
      | some b => [("minorEdit", strconvFormatBool b)]
      | none => [] }

/-- One network call an operation performed: `client.request` for the plain
GET/DELETE exchanges, `client.sendRequest` of a built POST for the multipart
uploads. -/
inductive NetCall where
  | request (method url body contentType : String)
  | send (method url : String) (body : MultipartBody)
deriving DecidableEq, Repr, Inhabited

/-- The external collaborators, as oracle functions.
Modelled from the spec: the transport (`client.request`/`client.sendRequest`,
which live outside `src/`) is `send(method, url, body, contentType) ->
(bytes, error)`; the local file system and the JSON decoder
(`os.Open`/`json.Unmarshal`, Go standard library) are oracles likewise. -/
structure Env where
  openFile : String → Except GoError GoFile
  request : String → String → String → String → Except GoError String
  sendRequest : String → String → MultipartBody → Except GoError String
  unmarshalAttachments : String → Except GoError Attachments
  unmarshalAttachment : String → Except GoError Attachment

/-- `DeleteAttachment`: fire a DELETE at the attachment endpoint; success is
the absence of a transport error. Returns the Go result plus the network
calls performed. -/
def Client.DeleteAttachment (client : Client) (env : Env)
    (contentID attachmentID : String) : Except GoError Unit × List NetCall :=
  match client.attachmentEndpoint contentID attachmentID with
  | .error err => (.error err, [])
  | .ok endpoint =>
    match env.request "DELETE" endpoint.toString "" "" with
    | .error err => (.error err, [.request "DELETE" endpoint.toString "" ""])
    | .ok _ => (.ok (), [.request "DELETE" endpoint.toString "" ""])

/-- `GetAttachment`: GET the attachment endpoint, decode the `results`
envelope, fail with `fmt.Errorf("empty list")` when the decoded list has
length below one, otherwise return its first element. -/
def Client.GetAttachment (client : Client) (env : Env)
    (contentID attachmentID : String) : Except GoError Attachment × List NetCall :=
  match client.attachmentEndpoint contentID attachmentID with
  | .error err => (.error err, [])
  | .ok endpoint =>
    match env.request "GET" endpoint.toString "" "" with
    | .error err => (.error err, [.request "GET" endpoint.toString "" ""])
    | .ok res =>
      match env.unmarshalAttachments res with
      | .error err => (.error err, [.request "GET" endpoint.toString "" ""])
      | .ok attachments =>
        if attachments.Results.length < 1 then
          (.error (.errorString "empty list"), [.request "GET" endpoint.toString "" ""])
        else
          (.ok attachments.Results.headI, [.request "GET" endpoint.toString "" ""])

/-- `GetAttachmentByFilename`: GET the collection endpoint with
`?filename={name}` set through `url.Values`, then the same decode and
emptiness handling as `GetAttachment`. -/
def Client.GetAttachmentByFilename (client : Client) (env : Env)
    (contentID filename : String) : Except GoError Attachment × List NetCall :=
  match client.newAttachmentEndpoint contentID with
  | .error err => (.error err, [])
  | .ok endpoint0 =>
    let endpoint : Url := { endpoint0 with rawQuery := valuesEncodeFilename filename }
    match env.request "GET" endpoint.toString "" "" with
    | .error err => (.error err, [.request "GET" endpoint.toString "" ""])
    | .ok res =>
      match env.unmarshalAttachments res with
      | .error err => (.error err, [.request "GET" endpoint.toString "" ""])
      | .ok attachments =>
        if attachments.Results.length < 1 then
          (.error (.errorString "empty list"), [.request "GET" endpoint.toString "" ""])
        else
          (.ok attachments.Results.headI, [.request "GET" endpoint.toString "" ""])

/-- `UpdateAttachment`: open and stat the local file, stream it into a
multipart body with a `minorEdit` field, POST it to the `/data`
sub-resource, and decode the response as one attachment object (no
envelope). The Go order is kept: the file is handled before the endpoint is
built, so a local failure returns before any network call. -/
def Client.UpdateAttachment (client : Client) (env : Env)
    (contentID attachmentID path : String) (minorEdit : Bool) :
    Except GoError Attachment × List NetCall :=
  match env.openFile path with
  | .error err => (.error err, [])
  | .ok file =>
    match file.statResult with
    | .error err => (.error err, [])
    | .ok fi =>
      match file.readResult with
      | .error err => (.error err, [])
      | .ok contents =>
        let body := mkMultipartBody fi.name contents (some minorEdit)
        match client.attachmentDataEndpoint contentID attachmentID with
        | .error err => (.error err, [])
        | .ok endpoint =>
          match env.sendRequest "POST" endpoint.toString body with
          | .error err => (.error err, [.send "POST" endpoint.toString body])
          | .ok res =>
            match env.unmarshalAttachment res with
            | .error err => (.error err, [.send "POST" endpoint.toString body])
            | .ok attachment => (.ok attachment, [.send "POST" endpoint.toString body])

/-- `AddAttachment`: open and stat the local file, stream it into a
multipart body (no extra fields), POST it to the collection endpoint, decode
the `results` envelope, fail with `fmt.Errorf("empty list")` when it is
empty, otherwise return its first element. -/
def Client.AddAttachment (client : Client) (env : Env)
    (contentID path : String) : Except GoError Attachment × List NetCall :=
  match env.openFile path with
  | .error err => (.error err, [])
  | .ok file =>
    match file.statResult with
    | .error err => (.error err, [])
    | .ok fi =>
      match file.readResult with
      | .error err => (.error err, [])
      | .ok contents =>
        let body := mkMultipartBody fi.name contents none
        match client.newAttachmentEndpoint contentID with
        | .error err => (.error err, [])
        | .ok endpoint =>
          match env.sendRequest "POST" endpoint.toString body with
          | .error err => (.error err, [.send "POST" endpoint.toString body])
          | .ok res =>
            match env.unmarshalAttachments res with
            | .error err => (.error err, [.send "POST" endpoint.toString body])
            | .ok attachments =>
              if attachments.Results.length < 1 then
                (.error (.errorString "empty list"),
                  [.send "POST" endpoint.toString body])
              else
                (.ok attachments.Results.headI, [.send "POST" endpoint.toString body])

/-- Go `path.Base`: empty input gives `"."`, trailing slashes are stripped,
the part after the last `/` is returned, an all-slash input gives `"/"`. -/
def pathBase (p : String) : String :=
  if p = "" then "."
  else
    let stripped := (p.toList.reverse.dropWhile (fun c => c == '/')).reverse
    let last := (stripped.reverse.takeWhile (fun c => !(c == '/'))).reverse
    if last.isEmpty then "/" else String.mk last

/-- One iteration of the `AddUpdateAttachments` loop for file `f`: look the
base name up; on any lookup error fall through to `AddAttachment`; on
success call `UpdateAttachment` with the id's first three characters
stripped (Go `attachment.Id[3:]`, a byte slice that panics when the id is
shorter than three bytes — the panic is modelled as `none`) and
`minorEdit = true`. The returned list is the network calls of the iteration. -/
def Client.addUpdateStep (client : Client) (env : Env)
    (contentID f : String) : Option (Except GoError Attachment × List NetCall) :=
  let lookup := client.GetAttachmentByFilename env contentID (pathBase f)
  match lookup.1 with
  | .error _ =>
    let created := client.AddAttachment env contentID f
    some (created.1, lookup.2 ++ created.2)
  | .ok attachment =>
    if 3 ≤ attachment.Id.length then
      let updated :=
        client.UpdateAttachment env contentID (attachment.Id.drop 3) f true
      some (updated.1, lookup.2 ++ updated.2)
    else none

/-- `AddUpdateAttachments`: run the loop body over the files in order,
appending each success to `results` and each failure to `errors`; `none`
models the batch aborting with a panic inside an iteration. -/
def Client.AddUpdateAttachments (client : Client) (env : Env)
    (contentID : String) : List String → Option (List Attachment × List GoError)
  | [] => some ([], [])
  | f :: rest =>
    match client.addUpdateStep env contentID f with
    | none => none
    | some out =>
      match client.AddUpdateAttachments env contentID rest with
      | none => none
      | some (results, errors) =>
        match out.1 with
        | .ok attachment => some (attachment :: results, errors)
        | .error err => some (results, err :: errors)

deriving instance DecidableEq for Except

/-! ## Helper lemmas about the URL model -/

/-- An accepted parse returns the input itself with no query. -/
theorem parseRequestURI_ok (s : String) (u : Url) (h : parseRequestURI s = .ok u) :
    u = { raw := s, rawQuery := "" } := by
  unfold parseRequestURI at h
  split at h
  · exact (Except.ok.inj h).symm
  · exact absurd h (by simp)

/-- `String()` of a query-free URL is its raw string. -/
theorem Url.toString_no_query (s : String) :
    Url.toString { raw := s, rawQuery := "" } = s := by
  simp [Url.toString]

/-- The attachment endpoint, when it parses, is the plain concatenation. -/
theorem attachmentEndpoint_ok_toString (client : Client) (cid aid : String) (u : Url)
    (h : client.attachmentEndpoint cid aid = .ok u) :
    u.toString
      = client.Endpoint ++ "/content/" ++ cid ++ "/child/attachment" ++ "/" ++ aid := by
  unfold Client.attachmentEndpoint at h
  cases hnew : client.newAttachmentEndpoint cid with
  | error e => rw [hnew] at h; exact absurd h (by simp)
  | ok endpoint =>
    simp only [hnew] at h
    unfold Client.newAttachmentEndpoint at hnew
    have he := parseRequestURI_ok _ _ hnew
    subst he
    rw [Url.toString_no_query] at h
    have hu := parseRequestURI_ok _ _ h
    subst hu
    rw [Url.toString_no_query]

/-- Merging the slash into the literal on the right of an append. -/
theorem append_attachment_slash (x : String) :
    x ++ "/child/attachment" ++ "/" = x ++ "/child/attachment/" := by
  rw [String.append_assoc]
  exact congrArg (x ++ ·) (by decide)

/-- The data endpoint, when it parses, is the plain concatenation with the
fixed separators already merged into literals. -/
theorem attachmentDataEndpoint_ok_toString (client : Client) (cid aid : String) (u : Url)
    (h : client.attachmentDataEndpoint cid aid = .ok u) :
    u.toString
      = client.Endpoint ++ "/content/" ++ cid ++ "/child/attachment/" ++ aid ++ "/data" := by
  unfold Client.attachmentDataEndpoint at h
  cases hmid : client.attachmentEndpoint cid aid with
  | error e => rw [hmid] at h; exact absurd h (by simp)
  | ok endpoint =>
    simp only [hmid] at h
    have hmids := attachmentEndpoint_ok_toString client cid aid endpoint hmid
    have hu := parseRequestURI_ok _ _ h
    subst hu
    rw [Url.toString_no_query, hmids, append_attachment_slash]

/-! ## Concrete fixtures used by witnesses and counterexamples -/

/-- A client with a well-formed base endpoint. -/
def clientW : Client := { Endpoint := "https://example.com/rest/api" }

/-- A client whose base endpoint does not parse (no scheme). -/
def clientBad : Client := { Endpoint := "confluence.local/api" }

/-- An attachment as the service would return it, with the `att` prefix. -/
def attW : Attachment :=
  { Id := "att123456", typ := "attachment", Status := "current", Title := "a.png",
    Metadata := { Comment := "", MediaType := "image/png" },
    Version := { Number := 1 } }

/-- An attachment whose id is shorter than three characters. -/
def attShort : Attachment :=
  { Id := "x", typ := "attachment", Status := "current", Title := "a.png",
    Metadata := { Comment := "", MediaType := "image/png" },
    Version := { Number := 1 } }

/-- An environment in which every collaborator call succeeds and every list
decode yields exactly `[attW]`. -/
def envW : Env :=
  { openFile := fun _ =>
      .ok { statResult := .ok { name := "a.png" }, readResult := .ok "BYTES" },
    request := fun _ _ _ _ => .ok "resbody",
    sendRequest := fun _ _ _ => .ok "sendbody",
    unmarshalAttachments := fun _ => .ok { Results := [attW], Size := 1 },
    unmarshalAttachment := fun _ => .ok attW }

/-- Like `envW` but the decoded attachment id is shorter than three
characters. -/
def envShort : Env :=
  { envW with unmarshalAttachments := fun _ => .ok { Results := [attShort], Size := 1 } }

/-- Like `envW` but every `client.request` exchange (the lookup GET) fails
with a transport error; the multipart POST path still succeeds. -/
def envLookupFail : Env :=
  { envW with request := fun _ _ _ _ => .error (.requestError "boom") }

/-- Like `envW` but the local file cannot be opened. -/
def envOpenFail : Env :=
  { envW with openFile := fun _ => .error (.osError "no such file") }

/-- Like `envW` but the decoded envelope reports size 7. -/
def envSizeA : Env :=
  { envW with unmarshalAttachments := fun _ => .ok { Results := [attW], Size := 7 } }

/-- Like `envW` but the decoded envelope reports size 99. -/
def envSizeB : Env :=
  { envW with unmarshalAttachments := fun _ => .ok { Results := [attW], Size := 99 } }

/-! ## Claim theorems -/

/-- C4: for every well-formed response body, `GetAttachment` — and
`GetAttachmentByFilename` under the same rule — returns exactly the first
element of the decoded results list unchanged when that list is non-empty,
and fails with the NotFound error `"empty list"` when it is empty. -/
theorem C4_get_first_or_notFound (client : Client) (env : Env)
    (cid aid name res1 res2 : String) (u1 u2 : Url) (atts1 atts2 : Attachments)
    (h1 : client.attachmentEndpoint cid aid = .ok u1)
    (hr1 : env.request "GET" u1.toString "" "" = .ok res1)
    (hd1 : env.unmarshalAttachments res1 = .ok atts1)
    (h2 : client.newAttachmentEndpoint cid = .ok u2)
    (hr2 : env.request "GET"
        (Url.toString { u2 with rawQuery := valuesEncodeFilename name }) "" ""
        = .ok res2)
    (hd2 : env.unmarshalAttachments res2 = .ok atts2) :
    (client.GetAttachment env cid aid).1
      = (if atts1.Results = [] then .error (.errorString "empty list")
         else .ok atts1.Results.headI)
    ∧ (client.GetAttachmentByFilename env cid name).1
      = (if atts2.Results = [] then .error (.errorString "empty list")
         else .ok atts2.Results.headI) := by
  constructor
  · unfold Client.GetAttachment
    simp only [h1, hr1, hd1]
    cases atts1.Results <;> simp
  · unfold Client.GetAttachmentByFilename
    simp only [h2, hr2, hd2]
    cases atts2.Results <;> simp

/-- Witness for C4 at a concrete client, environment and response. -/
theorem C4_get_first_or_notFound_witness :
    (clientW.GetAttachment envW "123" "att123456").1
      = (if ({ Results := [attW], Size := 1 } : Attachments).Results = []
         then .error (.errorString "empty list")
         else .ok ({ Results := [attW], Size := 1 } : Attachments).Results.headI)
    ∧ (clientW.GetAttachmentByFilename envW "123" "a.png").1
      = (if ({ Results := [attW], Size := 1 } : Attachments).Results = []
         then .error (.errorString "empty list")
         else .ok ({ Results := [attW], Size := 1 } : Attachments).Results.headI) :=
  C4_get_first_or_notFound clientW envW "123" "att123456" "a.png" "resbody" "resbody"
    { raw := "https://example.com/rest/api/content/123/child/attachment/att123456" }
    { raw := "https://example.com/rest/api/content/123/child/attachment" }
    { Results := [attW], Size := 1 } { Results := [attW], Size := 1 }
    (by decide) rfl rfl (by decide) rfl rfl

/-- C6: `UpdateAttachment` decodes the response as a single attachment
object and returns it; `AddAttachment` decodes the results-array envelope,
fails with NotFound (`"empty list"`) when the array is empty, and otherwise
returns its first element. -/
theorem C6_update_single_add_envelope (client : Client) (env : Env)
    (cid aid p : String) (m : Bool) (file : GoFile) (fi : FileInfo)
    (contents res ares : String) (u ua : Url) (a : Attachment) (atts : Attachments)
    (hopen : env.openFile p = .ok file) (hstat : file.statResult = .ok fi)
    (hread : file.readResult = .ok contents)
    (hu : client.attachmentDataEndpoint cid aid = .ok u)
    (hsend : env.sendRequest "POST" u.toString
        (mkMultipartBody fi.name contents (some m)) = .ok res)
    (hdec : env.unmarshalAttachment res = .ok a)
    (hua : client.newAttachmentEndpoint cid = .ok ua)
    (hsa : env.sendRequest "POST" ua.toString
        (mkMultipartBody fi.name contents none) = .ok ares)
    (hda : env.unmarshalAttachments ares = .ok atts) :
    (client.UpdateAttachment env cid aid p m).1 = .ok a
    ∧ (client.AddAttachment env cid p).1
      = (if atts.Results = [] then .error (.errorString "empty list")
         else .ok atts.Results.headI) := by
  constructor
  · unfold Client.UpdateAttachment
    simp only [hopen, hstat, hread, hu, hsend, hdec]
  · unfold Client.AddAttachment
    simp only [hopen, hstat, hread, hua, hsa, hda]
    cases atts.Results <;> simp

/-- Witness for C6 at a concrete client, environment and response. -/
theorem C6_update_single_add_envelope_witness :
    (clientW.UpdateAttachment envW "123" "123456" "a.png" true).1 = .ok attW
    ∧ (clientW.AddAttachment envW "123" "a.png").1
      = (if ({ Results := [attW], Size := 1 } : Attachments).Results = []
         then .error (.errorString "empty list")
         else .ok ({ Results := [attW], Size := 1 } : Attachments).Results.headI) :=
  C6_update_single_add_envelope clientW envW "123" "123456" "a.png" true
    { statResult := .ok { name := "a.png" }, readResult := .ok "BYTES" }
    { name := "a.png" } "BYTES" "sendbody" "sendbody"
    { raw := "https://example.com/rest/api/content/123/child/attachment/123456/data" }
    { raw := "https://example.com/rest/api/content/123/child/attachment" }
    attW { Results := [attW], Size := 1 }
    rfl rfl rfl (by decide) rfl rfl (by decide) rfl rfl

/-- C7: when the local file cannot be opened, `AddAttachment` and
`UpdateAttachment` fail with that local error and make no network call
(their network-call trace is empty). -/
theorem C7_open_failure_no_network (client : Client) (env : Env)
    (cid aid p : String) (m : Bool) (e : GoError)
    (hopen : env.openFile p = .error e) :
    client.UpdateAttachment env cid aid p m = (.error e, [])
    ∧ client.AddAttachment env cid p = (.error e, []) := by
  constructor
  · unfold Client.UpdateAttachment
    simp only [hopen]
  · unfold Client.AddAttachment
    simp only [hopen]

/-- Witness for C7 at a concrete client and failing file system. -/
theorem C7_open_failure_no_network_witness :
    clientW.UpdateAttachment envOpenFail "123" "123456" "a.png" true
      = (.error (.osError "no such file"), [])
    ∧ clientW.AddAttachment envOpenFail "123" "a.png"
      = (.error (.osError "no such file"), []) :=
  C7_open_failure_no_network clientW envOpenFail "123" "123456" "a.png" true
    (.osError "no such file") rfl

/-- C9: the emptiness decision of every list-decoding operation depends only
on the decoded results sequence, never on the reported size field: two
environments whose decoders agree on `Results` (and agree elsewhere) give
identical outcomes for `GetAttachment`, `GetAttachmentByFilename` and
`AddAttachment`, whatever `Size` each decoder reports. -/
theorem C9_size_field_irrelevant (client : Client) (envA envB : Env)
    (cid aid name p : String)
    (hreq : envA.request = envB.request)
    (hopen : envA.openFile = envB.openFile)
    (hsend : envA.sendRequest = envB.sendRequest)
    (hdec : ∀ r, (envA.unmarshalAttachments r).map Attachments.Results
               = (envB.unmarshalAttachments r).map Attachments.Results) :
    (client.GetAttachment envA cid aid).1 = (client.GetAttachment envB cid aid).1
    ∧ (client.GetAttachmentByFilename envA cid name).1
      = (client.GetAttachmentByFilename envB cid name).1
    ∧ (client.AddAttachment envA cid p).1 = (client.AddAttachment envB cid p).1 := by
  refine ⟨?_, ?_, ?_⟩
  · unfold Client.GetAttachment
    cases hend : client.attachmentEndpoint cid aid with
    | error e => simp [hend]
    | ok u =>
      simp only [hend]
      rw [hreq]
      cases hres : envB.request "GET" u.toString "" "" with
      | error e => simp [hres]
      | ok res =>
        have hd := hdec res
        cases hA : envA.unmarshalAttachments res with
        | error e =>
          cases hB : envB.unmarshalAttachments res with
          | error e2 =>
            rw [hA, hB] at hd; simp [Except.map] at hd; simp [hres, hA, hB, hd]
          | ok b => rw [hA, hB] at hd; simp [Except.map] at hd
        | ok a =>
          cases hB : envB.unmarshalAttachments res with
          | error e2 => rw [hA, hB] at hd; simp [Except.map] at hd
          | ok b =>
            rw [hA, hB] at hd; simp [Except.map] at hd; simp [hres, hA, hB, hd]
  · unfold Client.GetAttachmentByFilename
    cases hend : client.newAttachmentEndpoint cid with
    | error e => simp [hend]
    | ok u =>
      simp only [hend]
      rw [hreq]
      cases hres : envB.request "GET"
          (Url.toString { u with rawQuery := valuesEncodeFilename name }) "" "" with
      | error e => simp [hres]
      | ok res =>
        have hd := hdec res
        cases hA : envA.unmarshalAttachments res with
        | error e =>
          cases hB : envB.unmarshalAttachments res with
          | error e2 =>
            rw [hA, hB] at hd; simp [Except.map] at hd; simp [hres, hA, hB, hd]
          | ok b => rw [hA, hB] at hd; simp [Except.map] at hd
        | ok a =>
          cases hB : envB.unmarshalAttachments res with
          | error e2 => rw [hA, hB] at hd; simp [Except.map] at hd
          | ok b =>
            rw [hA, hB] at hd; simp [Except.map] at hd; simp [hres, hA, hB, hd]
  · unfold Client.AddAttachment
    rw [hopen]
    cases hof : envB.openFile p with
    | error e => simp [hof]
    | ok file =>
      cases hst : file.statResult with
      | error e => simp [hof, hst]
      | ok fi =>
        cases hrd : file.readResult with
        | error e => simp [hof, hst, hrd]
        | ok contents =>
          cases hend : client.newAttachmentEndpoint cid with
          | error e => simp [hof, hst, hrd, hend]
          | ok u =>
            simp only [hof, hst, hrd, hend]
            rw [hsend]
            cases hres : envB.sendRequest "POST" u.toString
                (mkMultipartBody fi.name contents none) with
            | error e => simp [hres]
            | ok res =>
              have hd := hdec res
              cases hA : envA.unmarshalAttachments res with
              | error e =>
                cases hB : envB.unmarshalAttachments res with
                | error e2 =>
                  rw [hA, hB] at hd; simp [Except.map] at hd
                  simp [hres, hA, hB, hd]
                | ok b => rw [hA, hB] at hd; simp [Except.map] at hd
              | ok a =>
                cases hB : envB.unmarshalAttachments res with
                | error e2 => rw [hA, hB] at hd; simp [Except.map] at hd
                | ok b =>
                  rw [hA, hB] at hd; simp [Except.map] at hd
                  simp [hres, hA, hB, hd]

/-- Witness for C9: two environments whose decoders report sizes 7 and 99
over the same results list give identical outcomes. -/
theorem C9_size_field_irrelevant_witness :
    (clientW.GetAttachment envSizeA "123" "att123456").1
      = (clientW.GetAttachment envSizeB "123" "att123456").1
    ∧ (clientW.GetAttachmentByFilename envSizeA "123" "a.png").1
      = (clientW.GetAttachmentByFilename envSizeB "123" "a.png").1
    ∧ (clientW.AddAttachment envSizeA "123" "a.png").1
      = (clientW.AddAttachment envSizeB "123" "a.png").1 :=
  C9_size_field_irrelevant clientW envSizeA envSizeB "123" "att123456" "a.png" "a.png"
    rfl rfl rfl (fun _ => rfl)

/-- C1 counterexample: the batch does not always complete. When the lookup
for `a.png` succeeds with an attachment whose id `"x"` is shorter than three
characters, the loop body's `attachment.Id[3:]` slice is out of range and
the batch aborts (modelled as `none`) instead of producing one outcome for
the one input file. -/
theorem C1_counterexample :
    clientW.AddUpdateAttachments envShort "123" ["a.png"] = none := by decide

/-- C1 (amended): provided every successful per-file lookup returns an
attachment id of at least three characters (so the `Id[3:]` slice is in
range), `AddUpdateAttachments` completes and produces exactly one outcome
per input file: the lengths of the results and errors lists sum to the
length of the input list. -/
theorem C1_outcome_per_file (client : Client) (env : Env) (cid : String)
    (files : List String)
    (hids : ∀ f ∈ files, ∀ a : Attachment,
      (client.GetAttachmentByFilename env cid (pathBase f)).1 = .ok a
        → 3 ≤ a.Id.length) :
    ∃ results errors,
      client.AddUpdateAttachments env cid files = some (results, errors)
      ∧ results.length + errors.length = files.length := by
  induction files with
  | nil => exact ⟨[], [], rfl, rfl⟩
  | cons f rest ih =>
    obtain ⟨rs, es, hrec, hlen⟩ := ih (fun g hg => hids g (List.mem_cons_of_mem f hg))
    have hstep : ∃ out, client.addUpdateStep env cid f = some out := by
      unfold Client.addUpdateStep
      cases hl : (client.GetAttachmentByFilename env cid (pathBase f)).1 with
      | error e =>
        refine ⟨((client.AddAttachment env cid f).1,
          (client.GetAttachmentByFilename env cid (pathBase f)).2
            ++ (client.AddAttachment env cid f).2), ?_⟩
        simp [hl]
      | ok a =>
        have h3 := hids f (List.mem_cons_self f rest) a hl
        refine ⟨((client.UpdateAttachment env cid (a.Id.drop 3) f true).1,
          (client.GetAttachmentByFilename env cid (pathBase f)).2
            ++ (client.UpdateAttachment env cid (a.Id.drop 3) f true).2), ?_⟩
        simp [hl, h3]
    obtain ⟨out, hout⟩ := hstep
    cases hres : out.1 with
    | ok a =>
      refine ⟨a :: rs, es, ?_, ?_⟩
      · simp [Client.AddUpdateAttachments, hout, hrec, hres]
      · simp only [List.length_cons]
        omega
    | error e =>
      refine ⟨rs, e :: es, ?_, ?_⟩
      · simp [Client.AddUpdateAttachments, hout, hrec, hres]
      · simp only [List.length_cons]
        omega

/-- Witness for the amended C1 at a concrete client and environment. -/
theorem C1_outcome_per_file_witness :
    ∃ results errors,
      clientW.AddUpdateAttachments envW "123" ["a.png"] = some (results, errors)
      ∧ results.length + errors.length = ["a.png"].length := by
  apply C1_outcome_per_file
  intro f hf a ha
  simp only [List.mem_singleton] at hf
  subst hf
  have h0 : (clientW.GetAttachmentByFilename envW "123" (pathBase "a.png")).1
      = .ok attW := by decide
  rw [h0] at ha
  cases ha
  decide

/-- C2 counterexample: a transport failure of the lookup (not a NotFound) is
recovered into a Create, not surfaced as the file's batch error: the step
performs the collection POST of `AddAttachment` and the batch returns the
created attachment with an empty errors list. -/
theorem C2_counterexample :
    clientW.addUpdateStep envLookupFail "123" "a.png"
      = some (.ok attW,
          [.request "GET"
             "https://example.com/rest/api/content/123/child/attachment?filename=a.png"
             "" "",
           .send "POST" "https://example.com/rest/api/content/123/child/attachment"
             { fileFieldName := "file", fileName := "a.png", fileContents := "BYTES",
               fields := [] }])
    ∧ clientW.AddUpdateAttachments envLookupFail "123" ["a.png"]
      = some ([attW], []) := by
  decide

/-- C2 (amended): every failure of the per-file lookup, whatever its kind —
NotFound, transport or decode — routes that file to Create
(`AddAttachment`); no lookup error is surfaced directly, only the outcome of
the subsequent `AddAttachment` is recorded for the file. -/
theorem C2_any_lookup_error_routes_to_create (client : Client) (env : Env)
    (cid f : String) (e : GoError)
    (he : (client.GetAttachmentByFilename env cid (pathBase f)).1 = .error e) :
    client.addUpdateStep env cid f
      = some ((client.AddAttachment env cid f).1,
          (client.GetAttachmentByFilename env cid (pathBase f)).2
            ++ (client.AddAttachment env cid f).2) := by
  unfold Client.addUpdateStep
  simp [he]

/-- Witness for the amended C2: a transport-failed lookup routes to Create. -/
theorem C2_any_lookup_error_routes_to_create_witness :
    clientW.addUpdateStep envLookupFail "123" "a.png"
      = some ((clientW.AddAttachment envLookupFail "123" "a.png").1,
          (clientW.GetAttachmentByFilename envLookupFail "123" (pathBase "a.png")).2
            ++ (clientW.AddAttachment envLookupFail "123" "a.png").2) :=
  C2_any_lookup_error_routes_to_create clientW envLookupFail "123" "a.png"
    (.requestError "boom") (by decide)

/-- C3: when the per-file lookup succeeds with attachment `a` (whose id
carries the three-character type prefix), the step calls `UpdateAttachment`
with `minorEdit = true` and the identifier `a.Id` with its first three
characters removed, and the data endpoint built from that identifier is
`{base}/content/{cid}/child/attachment/{a.Id minus prefix}/data`. -/
theorem C3_update_path_stripped_id (client : Client) (env : Env)
    (cid f : String) (a : Attachment)
    (ha : (client.GetAttachmentByFilename env cid (pathBase f)).1 = .ok a)
    (hlen : 3 ≤ a.Id.length) :
    client.addUpdateStep env cid f
      = some ((client.UpdateAttachment env cid (a.Id.drop 3) f true).1,
          (client.GetAttachmentByFilename env cid (pathBase f)).2
            ++ (client.UpdateAttachment env cid (a.Id.drop 3) f true).2)
    ∧ ∀ u : Url, client.attachmentDataEndpoint cid (a.Id.drop 3) = .ok u →
        u.toString = client.Endpoint ++ "/content/" ++ cid ++ "/child/attachment/"
          ++ a.Id.drop 3 ++ "/data" := by
  constructor
  · unfold Client.addUpdateStep
    simp [ha, hlen]
  · intro u hu
    exact attachmentDataEndpoint_ok_toString client cid (a.Id.drop 3) u hu

/-- Witness for C3: the service holds `a.png` under id `att123456`; the
update goes to `.../content/123/child/attachment/123456/data`. -/
theorem C3_update_path_stripped_id_witness :
    clientW.addUpdateStep envW "123" "a.png"
      = some ((clientW.UpdateAttachment envW "123" (attW.Id.drop 3) "a.png" true).1,
          (clientW.GetAttachmentByFilename envW "123" (pathBase "a.png")).2
            ++ (clientW.UpdateAttachment envW "123" (attW.Id.drop 3) "a.png" true).2)
    ∧ Url.toString
        { raw := "https://example.com/rest/api/content/123/child/attachment/123456/data" }
      = clientW.Endpoint ++ "/content/" ++ "123" ++ "/child/attachment/"
        ++ attW.Id.drop 3 ++ "/data" :=
  ⟨(C3_update_path_stripped_id clientW envW "123" "a.png" attW
      (by decide) (by decide)).1,
   (C3_update_path_stripped_id clientW envW "123" "a.png" attW
      (by decide) (by decide)).2
     { raw := "https://example.com/rest/api/content/123/child/attachment/123456/data" }
     (by decide)⟩

/-- C10: when some file's lookup succeeds with an attachment id shorter than
three characters, the `attachment.Id[3:]` slice is out of range: the step
aborts (modelled `none`) instead of recording a per-file error, and the
whole batch aborts with it. -/
theorem C10_short_id_panics (client : Client) (env : Env) (cid : String)
    (files : List String) (f : String) (hf : f ∈ files) (a : Attachment)
    (ha : (client.GetAttachmentByFilename env cid (pathBase f)).1 = .ok a)
    (hshort : a.Id.length < 3) :
    client.addUpdateStep env cid f = none
    ∧ client.AddUpdateAttachments env cid files = none := by
  have hstep : client.addUpdateStep env cid f = none := by
    unfold Client.addUpdateStep
    simp only [ha]
    rw [if_neg (by omega)]
  refine ⟨hstep, ?_⟩
  induction files with
  | nil => cases hf
  | cons g rest ih =>
    rcases List.mem_cons.mp hf with hg | hg
    · subst hg
      simp [Client.AddUpdateAttachments, hstep]
    · have hrest := ih hg
      unfold Client.AddUpdateAttachments
      cases hsg : client.addUpdateStep env cid g with
      | none => rfl
      | some out => simp [hrest]

/-- Witness for C10 at a concrete environment returning the short id `"x"`. -/
theorem C10_short_id_panics_witness :
    clientW.addUpdateStep envShort "123" "a.png" = none
    ∧ clientW.AddUpdateAttachments envShort "123" ["a.png"] = none :=
  C10_short_id_panics clientW envShort "123" ["a.png"] "a.png"
    (List.mem_singleton.mpr rfl) attShort (by decide) (by decide)

/-- C5 counterexample: an empty content identifier is not rejected. With a
well-formed base the builder accepts it, producing
`{base}/content//child/attachment`, and `GetAttachment` goes on to make the
network request (its network trace is non-empty). -/
theorem C5_counterexample :
    clientW.newAttachmentEndpoint ""
      = .ok { raw := "https://example.com/rest/api/content//child/attachment" }
    ∧ (clientW.GetAttachment envW "" "a").2
      = [.request "GET" "https://example.com/rest/api/content//child/attachment/a"
          "" ""] := by
  decide

/-- C5 (amended): an operation aborts before the wire only when URL
construction fails — not on an empty content identifier as such. When the
collection endpoint fails to parse, `GetAttachment`,
`GetAttachmentByFilename` and `DeleteAttachment` return that error with an
empty network trace, and `AddAttachment` and `UpdateAttachment` make no
network call either. -/
theorem C5_no_network_on_endpoint_error (client : Client) (env : Env)
    (cid aid name p : String) (m : Bool) (e : GoError)
    (hend : client.newAttachmentEndpoint cid = .error e) :
    client.GetAttachment env cid aid = (.error e, [])
    ∧ client.GetAttachmentByFilename env cid name = (.error e, [])
    ∧ client.DeleteAttachment env cid aid = (.error e, [])
    ∧ (client.AddAttachment env cid p).2 = []
    ∧ (client.UpdateAttachment env cid aid p m).2 = [] := by
  have hmid : client.attachmentEndpoint cid aid = .error e := by
    unfold Client.attachmentEndpoint
    simp [hend]
  have hdata : client.attachmentDataEndpoint cid aid = .error e := by
    unfold Client.attachmentDataEndpoint
    simp [hmid]
  refine ⟨?_, ?_, ?_, ?_, ?_⟩
  · unfold Client.GetAttachment
    simp [hmid]
  · unfold Client.GetAttachmentByFilename
    simp [hend]
  · unfold Client.DeleteAttachment
    simp [hmid]
  · unfold Client.AddAttachment
    cases hof : env.openFile p with
    | error e2 => simp [hof]
    | ok file =>
      cases hst : file.statResult with
      | error e2 => simp [hof, hst]
      | ok fi =>
        cases hrd : file.readResult with
        | error e2 => simp [hof, hst, hrd]
        | ok contents => simp [hof, hst, hrd, hend]
  · unfold Client.UpdateAttachment
    cases hof : env.openFile p with
    | error e2 => simp [hof]
    | ok file =>
      cases hst : file.statResult with
      | error e2 => simp [hof, hst]
      | ok fi =>
        cases hrd : file.readResult with
        | error e2 => simp [hof, hst, hrd]
        | ok contents => simp [hof, hst, hrd, hdata]

/-- Witness for the amended C5 at a client whose base endpoint is malformed. -/
theorem C5_no_network_on_endpoint_error_witness :
    clientBad.GetAttachment envW "123" "a"
      = (.error (.urlError "confluence.local/api/content/123/child/attachment"), [])
    ∧ clientBad.GetAttachmentByFilename envW "123" "a.png"
      = (.error (.urlError "confluence.local/api/content/123/child/attachment"), [])
    ∧ clientBad.DeleteAttachment envW "123" "a"
      = (.error (.urlError "confluence.local/api/content/123/child/attachment"), [])
    ∧ (clientBad.AddAttachment envW "123" "a.png").2 = []
    ∧ (clientBad.UpdateAttachment envW "123" "a" "a.png" true).2 = [] :=
  C5_no_network_on_endpoint_error clientBad envW "123" "a" "a.png" "a.png" true
    (.urlError "confluence.local/api/content/123/child/attachment") (by decide)

/-- Identifiers the injectivity claim quantifies over: non-empty and purely
alphanumeric (in particular free of `/` and of URL metacharacters). -/
def wellFormedId (s : String) : Bool :=
  !s.isEmpty && s.toList.all Char.isAlphanum

/-- A well-formed identifier contains no slash. -/
theorem wellFormedId_no_slash (s : String) (h : wellFormedId s = true) :
    ∀ c ∈ s.data, c ≠ '/' := by
  intro c hc hslash
  unfold wellFormedId at h
  rw [Bool.and_eq_true] at h
  have hall := h.2
  rw [List.all_eq_true] at hall
  have hcalpha := hall c hc
  subst hslash
  exact absurd hcalpha (by decide)

/-- Cancellation around the first slash: a slash-free prefix followed by a
slash determines the split. -/
theorem no_slash_append_cancel (l1 : List Char) :
    ∀ (t1 l2 t2 : List Char), (∀ c ∈ l1, c ≠ '/') → (∀ c ∈ l2, c ≠ '/') →
      l1 ++ '/' :: t1 = l2 ++ '/' :: t2 → l1 = l2 ∧ t1 = t2 := by
  induction l1 with
  | nil =>
    intro t1 l2 t2 h1 h2 heq
    cases l2 with
    | nil => simpa using heq
    | cons b bs =>
      simp at heq
      exact absurd heq.1.symm (h2 b (by simp))
  | cons a as ih =>
    intro t1 l2 t2 h1 h2 heq
    cases l2 with
    | nil =>
      simp at heq
      exact absurd heq.1 (h1 a (by simp))
    | cons b bs =>
      simp at heq
      obtain ⟨hab, hrest⟩ := heq
      obtain ⟨hpre, hsuf⟩ := ih t1 bs t2 (fun c hc => h1 c (List.mem_cons_of_mem a hc))
        (fun c hc => h2 c (List.mem_cons_of_mem b hc)) hrest
      exact ⟨by rw [hab, hpre], hsuf⟩

/-- C8: the endpoint builder is injective on well-formed inputs: two
well-formed (content id, attachment id) pairs that build the same URL are
equal. -/
theorem C8_attachmentEndpoint_injective (client : Client)
    (cidA aidA cidB aidB : String) (uA uB : Url)
    (hc1 : wellFormedId cidA = true) (ha1 : wellFormedId aidA = true)
    (hc2 : wellFormedId cidB = true) (ha2 : wellFormedId aidB = true)
    (hA : client.attachmentEndpoint cidA aidA = .ok uA)
    (hB : client.attachmentEndpoint cidB aidB = .ok uB)
    (heq : uA.toString = uB.toString) :
    cidA = cidB ∧ aidA = aidB := by
  rw [attachmentEndpoint_ok_toString client cidA aidA uA hA,
      attachmentEndpoint_ok_toString client cidB aidB uB hB] at heq
  have hl := congrArg String.data heq
  simp only [String.data_append, List.append_assoc] at hl
  have hl2 := List.append_cancel_left hl
  have hl3 := List.append_cancel_left hl2
  simp only [List.cons_append, List.nil_append] at hl3
  obtain ⟨hcid, hrest⟩ := no_slash_append_cancel cidA.data _ cidB.data _
    (wellFormedId_no_slash cidA hc1) (wellFormedId_no_slash cidB hc2) hl3
  simp only [List.cons.injEq, true_and] at hrest
  exact ⟨String.ext hcid, String.ext hrest⟩

/-- Witness for C8 at concrete well-formed identifiers. -/
theorem C8_attachmentEndpoint_injective_witness :
    ("123" : String) = "123" ∧ ("456" : String) = "456" :=
  C8_attachmentEndpoint_injective clientW "123" "456" "123" "456"
    { raw := "https://example.com/rest/api/content/123/child/attachment/456" }
    { raw := "https://example.com/rest/api/content/123/child/attachment/456" }
    (by decide) (by decide) (by decide) (by decide) (by decide) (by decide) rfl
